import Mathlib

/-!
Verification of the `ipa_host` Ansible module
(`lib/ansible/modules/identity/ipa/ipa_host.py`).

The module is a declarative reconciliation shim over the FreeIPA JSON API:
`ensure` fetches the current host record, builds the desired attribute map
from the module parameters, computes a key-wise diff, issues at most one
mutating API call, and returns the pair `(changed, fresh host_find result)`.

We embed the attribute maps as association lists over a small scalar value
type, and `ensure` as a pure function that additionally records the list of
API calls it issues, so that frame properties ("no call of kind X happens")
become statements about that list.
-/

namespace IpaHost

/-- Scalar/list values occurring in the attribute maps. `none` stands for
Python `None` (the default of `dict.get`); `certList l` encodes the list
`[{"__base64__": item} for item in l]` built for `usercertificate`. -/
inductive Value where
  | none
  | str (s : String)
  | bool (b : Bool)
  | strList (l : List String)
  | certList (l : List String)
  deriving DecidableEq, Repr

/-- An attribute map (a Python `dict` with string keys), as an association
list in insertion order. -/
abbrev Dict := List (String × Value)

/-- First-match lookup, `d[k]` when present. -/
def Dict.lookup : Dict → String → Option Value
  | [], _ => Option.none
  | (k, v) :: rest, key => if k = key then some v else Dict.lookup rest key

/-- Python `d.get(k)`: the stored value, or `None` when absent. -/
def Dict.get (d : Dict) (k : String) : Value :=
  (Dict.lookup d k).getD Value.none

/-- The keys of the map, in order. -/
def Dict.keys (d : Dict) : List String :=
  d.map Prod.fst

/-- Python `del d[k]`: remove the entry (entries) with key `k`. -/
def Dict.erase (d : Dict) (k : String) : Dict :=
  d.filter fun kv => kv.1 ≠ k

/-- The module parameters that feed `get_host_dict`; `Option.none` is a
parameter the user did not supply (Python `None`). -/
structure HostParams where
  description : Option String
  force : Option Bool
  ip_address : Option String
  ns_host_location : Option String
  ns_hardware_platform : Option String
  ns_os_version : Option String
  user_certificate : Option (List String)
  mac_address : Option (List String)
  deriving DecidableEq, Repr

/-- `get_host_dict`: build the desired attribute map, inserting a key for
each parameter that is not `None`, in source order. -/
def get_host_dict (p : HostParams) : Dict :=
  (p.description.map fun v => ("description", Value.str v)).toList ++
  (p.force.map fun v => ("force", Value.bool v)).toList ++
  (p.ip_address.map fun v => ("ip_address", Value.str v)).toList ++
  (p.ns_host_location.map fun v => ("nshostlocation", Value.str v)).toList ++
  (p.ns_hardware_platform.map fun v => ("nshardwareplatform", Value.str v)).toList ++
  (p.ns_os_version.map fun v => ("nsosversion", Value.str v)).toList ++
  (p.user_certificate.map fun v => ("usercertificate", Value.certList v)).toList ++
  (p.mac_address.map fun v => ("macaddress", Value.strList v)).toList

/-- Modelled from the spec: `IPAClient.get_diff` lives in
`module_utils/ipa.py`, which is not part of this repository snapshot; the
spec describes it as computing a key-wise diff of the desired attributes
against the current state. It returns the keys of `module_data` whose value
differs from the current value in `ipa_data`. -/
def get_diff (ipa_data module_data : Dict) : List String :=
  (Dict.keys module_data).filter fun k =>
    Dict.lookup ipa_data k ≠ Dict.lookup module_data k

/-- The keys `host_mod` cannot update, removed from the desired map before
diffing. -/
def non_updateable_keys : List String := ["force", "ip_address"]

/-- `get_host_diff`: delete the non-updateable keys from `module_host` in
place, then diff against `ipa_host`. The Python function mutates
`module_host`; we return the mutated map alongside the diff. -/
def get_host_diff (ipa_host module_host : Dict) : List String × Dict :=
  let cleaned := non_updateable_keys.foldl Dict.erase module_host
  (get_diff ipa_host cleaned, cleaned)

/-- One remote API call issued through the `HostIPAClient`. -/
inductive ApiCall where
  | host_find (name : String)
  | host_add (name : String) (host : Dict)
  | host_mod (name : String) (host : Dict)
  | host_del (name : String)
  | host_disable (name : String)
  deriving DecidableEq, Repr

/-- The module-side inputs `ensure` reads: the relevant parameters, the
`fqdn`, the requested `state`, and the check-mode flag. -/
structure ModuleState where
  params : HostParams
  fqdn : String
  state : String
  check_mode : Bool
  deriving DecidableEq, Repr

/-- The remote side, abstracted as the responses the two `host_find` calls
receive; an empty map is Python-falsy and means the host does not exist. -/
structure Remote where
  find1 : Dict
  find2 : Dict
  deriving DecidableEq, Repr

/-- What `ensure` produces: the `(changed, host)` pair it returns, plus the
trace of API calls it issued, in order. -/
structure EnsureResult where
  changed : Bool
  host : Dict
  calls : List ApiCall
  deriving DecidableEq, Repr

/-- `ensure`: fetch the current host, build the desired map, branch on the
state, issue at most one mutating call (suppressed in check mode), and
return `(changed, host_find(name))`. -/
def ensure (module : ModuleState) (client : Remote) : EnsureResult :=
  let name := module.fqdn
  let state := module.state
  let ipa_host := client.find1
  let module_host := get_host_dict module.params
  let step : Bool × List ApiCall :=
    if state ∈ ["present", "enabled", "disabled"] then
      if ipa_host = [] then
        (true, if module.check_mode then [] else [ApiCall.host_add name module_host])
      else
        let hd := get_host_diff ipa_host module_host
        if hd.1.length > 0 then
          (true,
            if module.check_mode then []
            else [ApiCall.host_mod name (hd.1.map fun key => (key, Dict.get hd.2 key))])
        else (false, [])
    else
      if ipa_host ≠ [] then
        (true, if module.check_mode then [] else [ApiCall.host_del name])
      else (false, [])
  { changed := step.1
    host := client.find2
    calls := ApiCall.host_find name :: step.2 ++ [ApiCall.host_find name] }

/-- The `state` choices accepted by the argument spec in `main`. -/
def state_choices : List String := ["present", "absent", "enabled", "disabled"]

/-- An exception value: its message (`to_native(e)`) and formatted
traceback (`traceback.format_exc()`). -/
structure Exc where
  msg : String
  trace : String
  deriving DecidableEq, Repr

/-- The two ways `main` reports back to Ansible. -/
inductive Outcome where
  | exit_json (changed : Bool) (host : Dict)
  | fail_json (msg : String) (exception : String)
  deriving DecidableEq, Repr

/-- The `try`/`except` block of `main`: run `login`, then `ensure`; any
exception from either is caught and reported through `fail_json` with the
message and traceback; success reports through `exit_json`. -/
def main_try (loginResult : Except Exc Unit) (ensureResult : Except Exc (Bool × Dict)) :
    Outcome :=
  match loginResult with
  | .error e => .fail_json e.msg e.trace
  | .ok _ =>
    match ensureResult with
    | .error e => .fail_json e.msg e.trace
    | .ok (changed, host) => .exit_json changed host

/-! ### Concrete fixtures used to instantiate the theorems -/

/-- A parameter set with nothing supplied (every option `None`). -/
def emptyParams : HostParams :=
  ⟨Option.none, Option.none, Option.none, Option.none,
   Option.none, Option.none, Option.none, Option.none⟩

/-- A parameter set supplying only a description. -/
def descParams : HostParams :=
  { emptyParams with description := some "Example host" }

/-- A parameter set also supplying `force` and `ip_address`. -/
def fullParams : HostParams :=
  { descParams with force := some true, ip_address := some "192.168.0.123" }

/-- A current host record whose description is stale. -/
def staleHost : Dict := [("description", Value.str "old")]

/-- A current host record already matching `descParams`. -/
def matchingHost : Dict := [("description", Value.str "Example host")]

/-! ### Helper lemmas about the dictionary operations -/

theorem erase_cons (kv : String × Value) (rest : Dict) (s : String) :
    Dict.erase (kv :: rest) s =
      if kv.1 = s then Dict.erase rest s else kv :: Dict.erase rest s := by
  by_cases h : kv.1 = s <;> simp [Dict.erase, h]

theorem lookup_erase (d : Dict) (s k : String) :
    Dict.lookup (Dict.erase d s) k = if k = s then Option.none else Dict.lookup d k := by
  induction d with
  | nil => simp [Dict.erase, Dict.lookup]
  | cons kv rest ih =>
    rw [erase_cons]
    by_cases hks : kv.1 = s
    · rw [if_pos hks, ih]
      by_cases hkk : k = s
      · simp [hkk]
      · rw [if_neg hkk, if_neg hkk, Dict.lookup,
          if_neg (by rw [hks]; exact fun h => hkk h.symm)]
    · rw [if_neg hks]
      by_cases hkvk : kv.1 = k
      · have hkk : ¬ k = s := fun h => hks (hkvk.trans h)
        simp [Dict.lookup, hkvk, hkk]
      · simp [Dict.lookup, hkvk, ih]

theorem lookup_ne_none_of_mem_keys (d : Dict) (k : String) (h : k ∈ Dict.keys d) :
    Dict.lookup d k ≠ Option.none := by
  induction d with
  | nil => cases h
  | cons kv rest ih =>
    simp only [Dict.keys, List.map_cons, List.mem_cons] at h
    by_cases hk : kv.1 = k
    · simp [Dict.lookup, hk]
    · cases h with
      | inl he => exact absurd he.symm hk
      | inr hm => simpa [Dict.lookup, hk] using ih (by simpa [Dict.keys] using hm)

theorem mem_get_diff (ipa md : Dict) (k : String) :
    k ∈ get_diff ipa md ↔
      k ∈ Dict.keys md ∧ Dict.lookup ipa k ≠ Dict.lookup md k := by
  simp [get_diff, List.mem_filter]

/-- The in-place cleaned map of `get_host_diff` is the double erase. -/
theorem get_host_diff_snd (ih mh : Dict) :
    (get_host_diff ih mh).2 = Dict.erase (Dict.erase mh "force") "ip_address" := rfl

theorem lookup_cleaned (ih mh : Dict) (k : String) :
    Dict.lookup (get_host_diff ih mh).2 k =
      if k = "ip_address" then Option.none
      else if k = "force" then Option.none
      else Dict.lookup mh k := by
  rw [get_host_diff_snd, lookup_erase, lookup_erase]

/-- A key in the computed diff is neither non-updateable key, and its value
in the cleaned map equals its value in the original desired map. -/
theorem diff_key_props (ih mh : Dict) (k : String)
    (h : k ∈ (get_host_diff ih mh).1) :
    k ≠ "force" ∧ k ≠ "ip_address" ∧
      Dict.lookup (get_host_diff ih mh).2 k = Dict.lookup mh k ∧
      Dict.lookup mh k ≠ Option.none := by
  have hd : k ∈ get_diff ih (get_host_diff ih mh).2 := h
  rw [mem_get_diff] at hd
  have hsome : Dict.lookup (get_host_diff ih mh).2 k ≠ Option.none :=
    lookup_ne_none_of_mem_keys _ k hd.1
  rw [lookup_cleaned] at hsome ⊢
  by_cases h1 : k = "ip_address"
  · simp [h1] at hsome
  · by_cases h2 : k = "force"
    · simp [h1, h2] at hsome
    · exact ⟨h2, h1, by simp [h1, h2], by simpa [h1, h2] using hsome⟩

theorem lookup_append (d1 d2 : Dict) (k : String) :
    Dict.lookup (d1 ++ d2) k =
      match Dict.lookup d1 k with
      | some v => some v
      | Option.none => Dict.lookup d2 k := by
  induction d1 with
  | nil => simp [Dict.lookup]
  | cons kv rest ih =>
    by_cases h : kv.1 = k
    · simp [Dict.lookup, h]
    · simp [Dict.lookup, h, ih]

theorem lookup_opt_seg {α : Type} (o : Option α) (f : α → Value) (key k : String) :
    Dict.lookup ((o.map fun v => (key, f v)).toList) k =
      if k = key then o.map f else Option.none := by
  cases o with
  | none => by_cases h : k = key <;> simp [Dict.lookup, h]
  | some v =>
    by_cases h : k = key
    · simp [Dict.lookup, h]
    · simp [Dict.lookup, h, Ne.symm h]

/-- Key-wise characterization of the desired map built by `get_host_dict`. -/
theorem lookup_get_host_dict (p : HostParams) (k : String) :
    Dict.lookup (get_host_dict p) k =
      if k = "description" then p.description.map Value.str
      else if k = "force" then p.force.map Value.bool
      else if k = "ip_address" then p.ip_address.map Value.str
      else if k = "nshostlocation" then p.ns_host_location.map Value.str
      else if k = "nshardwareplatform" then p.ns_hardware_platform.map Value.str
      else if k = "nsosversion" then p.ns_os_version.map Value.str
      else if k = "usercertificate" then p.user_certificate.map Value.certList
      else if k = "macaddress" then p.mac_address.map Value.strList
      else Option.none := by
  simp only [get_host_dict, List.append_assoc, lookup_append, lookup_opt_seg]
  by_cases h1 : k = "description" <;>
    by_cases h2 : k = "force" <;>
    by_cases h3 : k = "ip_address" <;>
    by_cases h4 : k = "nshostlocation" <;>
    by_cases h5 : k = "nshardwareplatform" <;>
    by_cases h6 : k = "nsosversion" <;>
    by_cases h7 : k = "usercertificate" <;>
    by_cases h8 : k = "macaddress" <;>
    simp_all <;>
    cases p.description <;> cases p.force <;> cases p.ip_address <;>
    cases p.ns_host_location <;> cases p.ns_hardware_platform <;>
    cases p.ns_os_version <;> cases p.user_certificate <;> cases p.mac_address <;>
    simp

/-- Looking a key up in the `host_mod` payload `{k : g k | k in l}`. -/
theorem lookup_map_self (l : List String) (g : String → Value) (k : String) :
    Dict.lookup (l.map fun key => (key, g key)) k =
      if k ∈ l then some (g k) else Option.none := by
  induction l with
  | nil => simp [Dict.lookup]
  | cons a rest ih =>
    by_cases h : a = k
    · simp [Dict.lookup, h]
    · simp [Dict.lookup, h, ih, Ne.symm h]

/-- The four possible call traces of `ensure`: no mutation, one `host_add`
of the full desired map, one `host_mod` of the diffed keys, or one
`host_del`. -/
theorem ensure_calls_inventory (m : ModuleState) (c : Remote) :
    (ensure m c).calls = [ApiCall.host_find m.fqdn, ApiCall.host_find m.fqdn] ∨
    (ensure m c).calls = [ApiCall.host_find m.fqdn,
        ApiCall.host_add m.fqdn (get_host_dict m.params), ApiCall.host_find m.fqdn] ∨
    (ensure m c).calls = [ApiCall.host_find m.fqdn,
        ApiCall.host_mod m.fqdn
          ((get_host_diff c.find1 (get_host_dict m.params)).1.map
            fun key => (key, Dict.get (get_host_diff c.find1 (get_host_dict m.params)).2 key)),
        ApiCall.host_find m.fqdn] ∨
    (ensure m c).calls = [ApiCall.host_find m.fqdn,
        ApiCall.host_del m.fqdn, ApiCall.host_find m.fqdn] := by
  simp only [ensure]
  split_ifs <;> simp

/-! ### Claim theorems -/

/-- C1: the claim says that with state `disabled`, an existing host and
check mode off, `ensure` issues the `host_disable` call. It does not: at
this failing input — an existing host whose attributes already match, state
`disabled`, check mode off — `ensure` issues no mutating call at all (the
two calls are the initial and final `host_find`), because the `disabled`
state is handled by the same branch as `present` and
`HostIPAClient.host_disable` is never invoked anywhere in `ensure`. -/
theorem c1_state_disabled_never_disables :
    (ensure ⟨descParams, "host01.example.com", "disabled", false⟩
        ⟨matchingHost, matchingHost⟩).calls =
      [ApiCall.host_find "host01.example.com",
       ApiCall.host_find "host01.example.com"] := by decide

/-- C5: every exception from `login` or `ensure` is caught by `main`'s
`try`/`except` and reported via `fail_json` with the exception's message
and formatted traceback, uniformly for any exception value; success goes
through `exit_json`. -/
theorem c5_main_catches_exceptions (lr : Except Exc Unit)
    (er : Except Exc (Bool × Dict)) :
    (∀ e, lr = Except.error e →
      main_try lr er = Outcome.fail_json e.msg e.trace) ∧
    (∀ e, lr = Except.ok () → er = Except.error e →
      main_try lr er = Outcome.fail_json e.msg e.trace) ∧
    (∀ r, lr = Except.ok () → er = Except.ok r →
      main_try lr er = Outcome.exit_json r.1 r.2) := by
  refine ⟨?_, ?_, ?_⟩
  · intro e h
    subst h
    rfl
  · intro e h1 h2
    subst h1
    subst h2
    rfl
  · intro r h1 h2
    subst h1
    subst h2
    cases r
    rfl

/-- Witness for C5 at a concrete failed login. -/
theorem c5_witness :
    main_try (Except.error ⟨"boom", "Traceback (most recent call last)"⟩)
        (Except.ok (false, [])) =
      Outcome.fail_json "boom" "Traceback (most recent call last)" :=
  (c5_main_catches_exceptions _ _).1
    ⟨"boom", "Traceback (most recent call last)"⟩ rfl

/-- C10: `enabled` is among the accepted `state` choices of the argument
spec, and `ensure` with state `enabled` is extensionally identical to
`ensure` with state `present`: same result pair and same call trace, for
all parameters, remote responses and check-mode flags. -/
theorem c10_enabled_equals_present (p : HostParams) (fq : String) (ck : Bool)
    (c : Remote) :
    "enabled" ∈ state_choices ∧
    ensure ⟨p, fq, "enabled", ck⟩ c = ensure ⟨p, fq, "present", ck⟩ c :=
  ⟨by decide, rfl⟩

/-- C2: when state is `present`, check mode is off, the host exists and
the computed diff is non-empty, `ensure` issues exactly one mutating call:
a `host_mod` whose payload has exactly the diff's keys, each mapped to the
value that key has in the desired map built from the module parameters. -/
theorem c2_update_minimal (m : ModuleState) (c : Remote)
    (hst : m.state = "present") (hck : m.check_mode = false)
    (hex : c.find1 ≠ [])
    (hne : (get_host_diff c.find1 (get_host_dict m.params)).1 ≠ []) :
    (ensure m c).calls =
      [ApiCall.host_find m.fqdn,
       ApiCall.host_mod m.fqdn
         ((get_host_diff c.find1 (get_host_dict m.params)).1.map
            fun k => (k, Dict.get (get_host_dict m.params) k)),
       ApiCall.host_find m.fqdn] := by
  have hmem : m.state ∈ ["present", "enabled", "disabled"] := by
    rw [hst]; decide
  have hlen : (get_host_diff c.find1 (get_host_dict m.params)).1.length > 0 :=
    List.length_pos.mpr hne
  have hmap : ((get_host_diff c.find1 (get_host_dict m.params)).1.map
      fun k => (k, Dict.get (get_host_diff c.find1 (get_host_dict m.params)).2 k)) =
      ((get_host_diff c.find1 (get_host_dict m.params)).1.map
        fun k => (k, Dict.get (get_host_dict m.params) k)) := by
    apply List.map_congr_left
    intro k hk
    have hp := diff_key_props c.find1 (get_host_dict m.params) k hk
    simp [Dict.get, hp.2.2.1]
  simp [ensure, hmem, hex, hlen, hck, hmap]

/-- Witness for C2: a stale description gets updated by a one-key
`host_mod`. -/
theorem c2_witness :
    (ensure ⟨descParams, "h", "present", false⟩ ⟨staleHost, staleHost⟩).calls =
      [ApiCall.host_find "h",
       ApiCall.host_mod "h"
         ((get_host_diff staleHost (get_host_dict descParams)).1.map
            fun k => (k, Dict.get (get_host_dict descParams) k)),
       ApiCall.host_find "h"] :=
  c2_update_minimal ⟨descParams, "h", "present", false⟩ ⟨staleHost, staleHost⟩
    rfl rfl (by decide) (by decide)

/-- C4: when the current state already matches the desired state — the
host exists and the diff is empty for the present/enabled/disabled states,
or the host is absent for any other state (in particular `absent`) —
`ensure` issues no mutating call and reports `changed = false`. -/
theorem c4_idempotent (m : ModuleState) (c : Remote)
    (h : (m.state ∈ ["present", "enabled", "disabled"] ∧ c.find1 ≠ [] ∧
            (get_host_diff c.find1 (get_host_dict m.params)).1 = []) ∨
         (m.state = "absent" ∧ c.find1 = [])) :
    (ensure m c).changed = false ∧
      (ensure m c).calls = [ApiCall.host_find m.fqdn, ApiCall.host_find m.fqdn] := by
  rcases h with ⟨h1, h2, h3⟩ | ⟨h1, h2⟩
  · constructor <;> simp [ensure, h1, h2, h3]
  · have hmem : ¬ m.state ∈ ["present", "enabled", "disabled"] := by
      rw [h1]; decide
    constructor <;> simp [ensure, hmem, h2]

/-- Witness for C4: a host that already matches the desired description is
left alone. -/
theorem c4_witness :
    (ensure ⟨descParams, "h", "present", false⟩
        ⟨matchingHost, matchingHost⟩).changed = false ∧
    (ensure ⟨descParams, "h", "present", false⟩
        ⟨matchingHost, matchingHost⟩).calls =
      [ApiCall.host_find "h", ApiCall.host_find "h"] :=
  c4_idempotent ⟨descParams, "h", "present", false⟩ ⟨matchingHost, matchingHost⟩
    (Or.inl ⟨by decide, by decide, by decide⟩)

/-- C7: when the host does not exist and the state is `present`, `enabled`
or `disabled` (check mode off), `ensure` reports `changed = true` and
issues exactly one mutating call: a `host_add` carrying the full desired
map built by `get_host_dict`, which includes the `force` and `ip_address`
keys whenever those parameters were supplied. -/
theorem c7_create_missing (m : ModuleState) (c : Remote)
    (hst : m.state ∈ ["present", "enabled", "disabled"])
    (hck : m.check_mode = false) (hmiss : c.find1 = []) :
    (ensure m c).changed = true ∧
    (ensure m c).calls =
      [ApiCall.host_find m.fqdn,
       ApiCall.host_add m.fqdn (get_host_dict m.params),
       ApiCall.host_find m.fqdn] ∧
    (∀ b, m.params.force = some b →
      Dict.lookup (get_host_dict m.params) "force" = some (Value.bool b)) ∧
    (∀ ip, m.params.ip_address = some ip →
      Dict.lookup (get_host_dict m.params) "ip_address" = some (Value.str ip)) := by
  refine ⟨?_, ?_, ?_, ?_⟩
  · simp [ensure, hst, hmiss]
  · simp [ensure, hst, hmiss, hck]
  · intro b hb
    rw [lookup_get_host_dict]
    simp [hb]
  · intro ip hip
    rw [lookup_get_host_dict]
    simp [hip]

/-- Witness for C7: a missing host is created with description, `force`
and `ip_address` all in the `host_add` payload. -/
theorem c7_witness :
    (ensure ⟨fullParams, "h", "present", false⟩ ⟨[], matchingHost⟩).changed = true ∧
    (ensure ⟨fullParams, "h", "present", false⟩ ⟨[], matchingHost⟩).calls =
      [ApiCall.host_find "h",
       ApiCall.host_add "h" (get_host_dict fullParams),
       ApiCall.host_find "h"] ∧
    (∀ b, fullParams.force = some b →
      Dict.lookup (get_host_dict fullParams) "force" = some (Value.bool b)) ∧
    (∀ ip, fullParams.ip_address = some ip →
      Dict.lookup (get_host_dict fullParams) "ip_address" = some (Value.str ip)) :=
  c7_create_missing ⟨fullParams, "h", "present", false⟩ ⟨[], matchingHost⟩
    (by decide) rfl rfl

/-- C3: a module parameter passed as `None` has its key omitted from the
desired map built by `get_host_dict` (one conjunct per parameter), and any
key absent from the desired map can never appear in a `host_mod` payload,
so the corresponding remote attribute is never modified by an update. -/
theorem c3_none_params_left_untouched (m : ModuleState) (c : Remote) :
    (m.params.description = Option.none →
      Dict.lookup (get_host_dict m.params) "description" = Option.none) ∧
    (m.params.force = Option.none →
      Dict.lookup (get_host_dict m.params) "force" = Option.none) ∧
    (m.params.ip_address = Option.none →
      Dict.lookup (get_host_dict m.params) "ip_address" = Option.none) ∧
    (m.params.ns_host_location = Option.none →
      Dict.lookup (get_host_dict m.params) "nshostlocation" = Option.none) ∧
    (m.params.ns_hardware_platform = Option.none →
      Dict.lookup (get_host_dict m.params) "nshardwareplatform" = Option.none) ∧
    (m.params.ns_os_version = Option.none →
      Dict.lookup (get_host_dict m.params) "nsosversion" = Option.none) ∧
    (m.params.user_certificate = Option.none →
      Dict.lookup (get_host_dict m.params) "usercertificate" = Option.none) ∧
    (m.params.mac_address = Option.none →
      Dict.lookup (get_host_dict m.params) "macaddress" = Option.none) ∧
    (∀ k, Dict.lookup (get_host_dict m.params) k = Option.none →
      ∀ n pl, ApiCall.host_mod n pl ∈ (ensure m c).calls →
        Dict.lookup pl k = Option.none) := by
  refine ⟨?_, ?_, ?_, ?_, ?_, ?_, ?_, ?_, ?_⟩
  · intro hp; rw [lookup_get_host_dict]; simp [hp]
  · intro hp; rw [lookup_get_host_dict]; simp [hp]
  · intro hp; rw [lookup_get_host_dict]; simp [hp]
  · intro hp; rw [lookup_get_host_dict]; simp [hp]
  · intro hp; rw [lookup_get_host_dict]; simp [hp]
  · intro hp; rw [lookup_get_host_dict]; simp [hp]
  · intro hp; rw [lookup_get_host_dict]; simp [hp]
  · intro hp; rw [lookup_get_host_dict]; simp [hp]
  · intro k hk n pl hmem
    rcases ensure_calls_inventory m c with hi | hi | hi | hi <;>
      rw [hi] at hmem <;> simp at hmem
    obtain ⟨hn, hpl⟩ := hmem
    subst hpl
    rw [lookup_map_self]
    have hnot : k ∉ (get_host_diff c.find1 (get_host_dict m.params)).1 := by
      intro hkd
      have hp := diff_key_props c.find1 (get_host_dict m.params) k hkd
      exact hp.2.2.2 hk
    simp [hnot]

/-- Witness for C3: with `mac_address` not supplied, the `host_mod` payload
issued for a stale description carries no `macaddress` key. -/
theorem c3_witness :
    descParams.mac_address = Option.none ∧
    Dict.lookup [("description", Value.str "Example host")] "macaddress" =
      Option.none :=
  ⟨rfl,
    (c3_none_params_left_untouched ⟨descParams, "h", "present", false⟩
        ⟨staleHost, staleHost⟩).2.2.2.2.2.2.2.2 "macaddress" (by decide) "h"
      [("description", Value.str "Example host")] (by decide)⟩

/-- C6: `ensure` always first issues `host_find`, then at most one mutating
call (`host_add` of the full desired map, `host_mod`, or `host_del`), and
finally a fresh `host_find` whose response is the host it returns. -/
theorem c6_call_sequence (m : ModuleState) (c : Remote) :
    ∃ mutation : List ApiCall,
      (ensure m c).calls =
        ApiCall.host_find m.fqdn :: (mutation ++ [ApiCall.host_find m.fqdn]) ∧
      mutation.length ≤ 1 ∧
      (∀ call ∈ mutation,
        (∃ h, call = ApiCall.host_add m.fqdn h) ∨
        (∃ h, call = ApiCall.host_mod m.fqdn h) ∨
        call = ApiCall.host_del m.fqdn) ∧
      (ensure m c).host = c.find2 := by
  have hh : (ensure m c).host = c.find2 := rfl
  rcases ensure_calls_inventory m c with hi | hi | hi | hi
  · exact ⟨[], by simpa using hi, by simp, by simp, hh⟩
  · refine ⟨[ApiCall.host_add m.fqdn (get_host_dict m.params)],
      by simpa using hi, by simp, ?_, hh⟩
    intro call hcall
    simp at hcall
    subst hcall
    exact Or.inl ⟨_, rfl⟩
  · refine ⟨[ApiCall.host_mod m.fqdn
        ((get_host_diff c.find1 (get_host_dict m.params)).1.map
          fun key => (key, Dict.get (get_host_diff c.find1 (get_host_dict m.params)).2 key))],
      by simpa using hi, by simp, ?_, hh⟩
    intro call hcall
    simp at hcall
    subst hcall
    exact Or.inr (Or.inl ⟨_, rfl⟩)
  · refine ⟨[ApiCall.host_del m.fqdn], by simpa using hi, by simp, ?_, hh⟩
    intro call hcall
    simp at hcall
    subst hcall
    exact Or.inr (Or.inr rfl)

/-- Witness for C6 at a concrete deletion. -/
theorem c6_witness :
    ∃ mutation : List ApiCall,
      (ensure ⟨descParams, "h", "absent", false⟩ ⟨matchingHost, []⟩).calls =
        ApiCall.host_find "h" :: (mutation ++ [ApiCall.host_find "h"]) ∧
      mutation.length ≤ 1 ∧
      (∀ call ∈ mutation,
        (∃ h, call = ApiCall.host_add "h" h) ∨
        (∃ h, call = ApiCall.host_mod "h" h) ∨
        call = ApiCall.host_del "h") ∧
      (ensure ⟨descParams, "h", "absent", false⟩ ⟨matchingHost, []⟩).host = [] :=
  c6_call_sequence ⟨descParams, "h", "absent", false⟩ ⟨matchingHost, []⟩

/-- C8: in check mode, `ensure` issues no mutating call at all (its trace
is just the two `host_find` fetches), while `changed` is exactly what it
would be with check mode off. -/
theorem c8_check_mode_no_mutation (m : ModuleState) (c : Remote)
    (h : m.check_mode = true) :
    (ensure m c).calls = [ApiCall.host_find m.fqdn, ApiCall.host_find m.fqdn] ∧
    (ensure m c).changed = (ensure {m with check_mode := false} c).changed := by
  constructor
  · simp only [ensure, h]
    split_ifs <;> simp
  · simp only [ensure]
    split_ifs <;> simp_all

/-- Witness for C8: check mode on a stale host reports a pending change but
issues no `host_mod`. -/
theorem c8_witness :
    (ensure ⟨descParams, "h", "present", true⟩ ⟨staleHost, staleHost⟩).calls =
      [ApiCall.host_find "h", ApiCall.host_find "h"] ∧
    (ensure ⟨descParams, "h", "present", true⟩ ⟨staleHost, staleHost⟩).changed =
      (ensure ⟨descParams, "h", "present", false⟩ ⟨staleHost, staleHost⟩).changed :=
  c8_check_mode_no_mutation ⟨descParams, "h", "present", true⟩
    ⟨staleHost, staleHost⟩ rfl

/-- C9: `get_host_diff` deletes the non-updateable keys `force` and
`ip_address` from the desired map it is given (the returned, mutated map
has neither key), those keys never occur in the computed diff, and no
`host_mod` payload issued by `ensure` ever carries either key. -/
theorem c9_non_updateable_never_modified (ih mh : Dict) (m : ModuleState)
    (c : Remote) :
    (Dict.lookup (get_host_diff ih mh).2 "force" = Option.none ∧
     Dict.lookup (get_host_diff ih mh).2 "ip_address" = Option.none) ∧
    ("force" ∉ (get_host_diff ih mh).1 ∧
     "ip_address" ∉ (get_host_diff ih mh).1) ∧
    (∀ n pl, ApiCall.host_mod n pl ∈ (ensure m c).calls →
      Dict.lookup pl "force" = Option.none ∧
      Dict.lookup pl "ip_address" = Option.none) := by
  refine ⟨⟨?_, ?_⟩, ⟨?_, ?_⟩, ?_⟩
  · rw [lookup_cleaned]; simp
  · rw [lookup_cleaned]; simp
  · intro hm
    exact (diff_key_props ih mh "force" hm).1 rfl
  · intro hm
    exact (diff_key_props ih mh "ip_address" hm).2.1 rfl
  · intro n pl hmem
    rcases ensure_calls_inventory m c with hi | hi | hi | hi <;>
      rw [hi] at hmem <;> simp at hmem
    obtain ⟨hn, hpl⟩ := hmem
    subst hpl
    constructor <;> rw [lookup_map_self] <;> simp
    · intro hm
      exact (diff_key_props c.find1 (get_host_dict m.params) "force" hm).1 rfl
    · intro hm
      exact (diff_key_props c.find1 (get_host_dict m.params) "ip_address" hm).2.1 rfl

/-- Witness for C9 at a desired map that supplies both non-updateable
keys. -/
theorem c9_witness :
    (Dict.lookup (get_host_diff staleHost (get_host_dict fullParams)).2 "force" =
        Option.none ∧
     Dict.lookup (get_host_diff staleHost (get_host_dict fullParams)).2 "ip_address" =
        Option.none) ∧
    ("force" ∉ (get_host_diff staleHost (get_host_dict fullParams)).1 ∧
     "ip_address" ∉ (get_host_diff staleHost (get_host_dict fullParams)).1) ∧
    (∀ n pl, ApiCall.host_mod n pl ∈
        (ensure ⟨fullParams, "h", "present", false⟩ ⟨staleHost, staleHost⟩).calls →
      Dict.lookup pl "force" = Option.none ∧
      Dict.lookup pl "ip_address" = Option.none) :=
  c9_non_updateable_never_modified staleHost (get_host_dict fullParams)
    ⟨fullParams, "h", "present", false⟩ ⟨staleHost, staleHost⟩

end IpaHost
